import Mathlib

/-!
Shallow embedding of the loop-fusion pass (LoopFuse) of this repository:
the fusion-candidate data model, the memory-operation collector
(get_loop_memops), the induction extractor (get_loop_induction), the
candidate builder (create_fusion_candidate), the legality checker
(adjacent / are_constants_equal / same_loop_evolution / dependent /
can_be_fused), the same-depth recursive driver, and the action trace of
the transformer (fuse_with_first).

Pointers are modelled by identity-comparable handles: a basic block is a
numeric id plus its ordered instruction list (block identity is id
equality, mirroring pointer comparison), an LLVM Value is either a
non-constant handle (reg) or a uniqued constant.  Machine integers inside
constants keep their type tag and numeric value, as APInt equality on
same-typed constants compares values.  Nullable pointers become Option.
-/

namespace LoopFuse

/-- Model of an LLVM Constant: ConstantInt carries its integer type and
value, ConstantFP carries its type and the bit pattern of the float, any
other constant is an identity-only handle. -/
inductive Constant where
  | int (ty : Nat) (val : Int)
  | fp (ty : Nat) (bits : Nat)
  | otherConst (ty : Nat) (id : Nat)
deriving DecidableEq

/-- Type tag of a constant, modelling Constant::getType. -/
def Constant.ty : Constant → Nat
  | .int t _ => t
  | .fp t _ => t
  | .otherConst t _ => t

/-- Model of an LLVM Value: either a non-constant value (identified by a
handle, standing for the pointer identity of an instruction, argument or
global) or a uniqued constant. -/
inductive Value where
  | reg (id : Nat)
  | const (c : Constant)
deriving DecidableEq

/-- Binary-operator opcode tag (Instruction::BinaryOps). -/
inductive BinOp where
  | add
  | sub
  | mul
  | shl
  | otherOp (code : Nat)
deriving DecidableEq

/-- Instruction shapes the pass inspects.  For LoadInst, operand 0 is the
address; for StoreInst, operand 0 is the stored value and operand 1 the
address; for GetElementPtrInst, operand 0 is the base; for ICmpInst and
BinaryOperator, operand 1 is the right-hand side.  Anything else is
classified only by whether it may throw. -/
inductive Instr where
  | load (addr : Value) (vol : Bool)
  | store (val : Value) (addr : Value) (vol : Bool)
  | gep (base : Value)
  | icmp (lhs : Value) (rhs : Value)
  | binop (op : BinOp) (lhs : Value) (rhs : Value)
  | otherInstr (throws : Bool)
deriving DecidableEq

/-- Instruction::mayThrow in the model. -/
def Instr.mayThrow : Instr → Bool
  | .otherInstr t => t
  | _ => false

/-- Volatile load or store check of create_fusion_candidate. -/
def Instr.isVolatileAccess : Instr → Bool
  | .load _ v => v
  | .store _ _ v => v
  | _ => false

/-- Basic block: a pointer identity (id) and its ordered instructions. -/
structure BasicBlock where
  id : Nat
  instrs : List Instr
deriving DecidableEq

/-- LoopInduction record of the source.  Each of start, stop, advance is a
nullable constant plus a nullable variable reference; advance_op is the
opcode of the last latch binary operation (None only before any binary
operation was scanned). -/
structure LoopInduction where
  induction_variable : Value
  start_const : Option Constant
  start_variable : Option Value
  stop_const : Option Constant
  stop_variable : Option Value
  advance_const : Option Constant
  advance_variable : Option Value
  advance_op : Option BinOp
deriving DecidableEq

/-- FusionCandidate record of the source: the loop region's blocks, the
five structural blocks, the induction descriptor and the footprints. -/
structure FusionCandidate where
  loopBlocks : List BasicBlock
  preheader : BasicBlock
  header : BasicBlock
  pre_exit : BasicBlock
  exit : BasicBlock
  latch : BasicBlock
  induction : LoopInduction
  writes : List Value
  reads : List Value
deriving DecidableEq

/-- is_loop_body of the source: a block is body iff it is neither the
header nor the latch nor the pre-exit block (pointer comparison). -/
def is_loop_body (candidate : FusionCandidate) (bb : BasicBlock) : Bool :=
  bb.id != candidate.header.id && bb.id != candidate.latch.id
    && bb.id != candidate.pre_exit.id

/-- Mutable state threaded by get_loop_memops: the pending
address-computation slot (gep_operand with its seen_gep flag, fused into
one Option), the header first-load flag, and the two footprints. -/
structure MemState where
  gep_operand : Option Value
  header_seen_load : Bool
  writes : List Value
  reads : List Value
deriving DecidableEq

/-- Header branch of get_loop_memops, per instruction: the first load
goes to the write set and flips the flag, each later load goes to the
read set; every other instruction is ignored. -/
def memops_header_step (s : MemState) (i : Instr) : MemState :=
  match i with
  | .load addr _ =>
    if s.header_seen_load then
      { s with reads := s.reads ++ [addr] }
    else
      { s with writes := s.writes ++ [addr], header_seen_load := true }
  | _ => s

/-- Body branch of get_loop_memops, per instruction: a load consumes the
pending slot into the read set when occupied, otherwise records its own
address; a store does the same symmetrically into the write set; an
address computation overwrites the slot with its base operand. -/
def memops_body_step (s : MemState) (i : Instr) : MemState :=
  match i with
  | .load addr _ =>
    match s.gep_operand with
    | some g => { s with reads := s.reads ++ [g], gep_operand := none }
    | none => { s with reads := s.reads ++ [addr] }
  | .store _ addr _ =>
    match s.gep_operand with
    | some g => { s with writes := s.writes ++ [g], gep_operand := none }
    | none => { s with writes := s.writes ++ [addr] }
  | .gep base => { s with gep_operand := some base }
  | _ => s

/-- Per-block dispatch of get_loop_memops: the header block runs the
header branch, body blocks run the body branch, latch and pre-exit are
skipped; the state persists across blocks. -/
def memops_block_step (candidate : FusionCandidate) (s : MemState)
    (bb : BasicBlock) : MemState :=
  if bb.id = candidate.header.id then
    bb.instrs.foldl memops_header_step s
  else if is_loop_body candidate bb then
    bb.instrs.foldl memops_body_step s
  else
    s

/-- get_loop_memops of the source: fold the dispatch over the loop's
blocks starting from an empty slot and an unset header flag, appending to
the candidate's existing footprints. -/
def get_loop_memops (candidate : FusionCandidate) : FusionCandidate :=
  let s0 : MemState :=
    { gep_operand := none, header_seen_load := false,
      writes := candidate.writes, reads := candidate.reads }
  let s := candidate.loopBlocks.foldl (memops_block_step candidate) s0
  { candidate with writes := s.writes, reads := s.reads }

/-- State of the header scan of get_loop_induction. -/
structure HeaderScan where
  induction_variable : Option Value
  stop_const : Option Constant
  stop_variable : Option Value
deriving DecidableEq

/-- Header scan step of get_loop_induction: a comparison records its
second operand as stop (constant, or resolved through the variable map);
otherwise the first load (and only the first) records the induction
variable handle. -/
def induction_header_step (varMap : Value → Option Value)
    (s : HeaderScan) (i : Instr) : HeaderScan :=
  match i with
  | .icmp _ rhs =>
    match rhs with
    | .const c => { s with stop_const := some c }
    | _ => { s with stop_variable := varMap rhs }
  | .load addr _ =>
    if s.induction_variable.isNone then
      { s with induction_variable := some addr }
    else s
  | _ => s

/-- Header scan of get_loop_induction. -/
def header_scan (varMap : Value → Option Value) (instrs : List Instr) :
    HeaderScan :=
  instrs.foldl (induction_header_step varMap) ⟨none, none, none⟩

/-- State of the preheader scan of get_loop_induction. -/
structure StartScan where
  start_const : Option Constant
  start_variable : Option Value
deriving DecidableEq

/-- Preheader scan step of get_loop_induction: each store sets start: a
ConstantInt stored value sets start_const, any other stored value sets
start_variable through the variable map. -/
def induction_preheader_step (varMap : Value → Option Value)
    (s : StartScan) (i : Instr) : StartScan :=
  match i with
  | .store v _ _ =>
    match v with
    | .const (Constant.int t n) => { s with start_const := some (Constant.int t n) }
    | _ => { s with start_variable := varMap v }
  | _ => s

/-- Preheader scan of get_loop_induction. -/
def preheader_scan (varMap : Value → Option Value) (instrs : List Instr) :
    StartScan :=
  instrs.foldl (induction_preheader_step varMap) ⟨none, none⟩

/-- State of the latch scan of get_loop_induction. -/
structure AdvanceScan where
  advance_const : Option Constant
  advance_variable : Option Value
  advance_op : Option BinOp
deriving DecidableEq

/-- Latch scan step of get_loop_induction: each binary operation sets
advance_op to its opcode, then its second operand sets advance_const if
it is a ConstantInt and advance_variable through the variable map
otherwise. -/
def induction_latch_step (varMap : Value → Option Value)
    (s : AdvanceScan) (i : Instr) : AdvanceScan :=
  match i with
  | .binop op _ rhs =>
    match rhs with
    | .const (Constant.int t n) =>
      { s with advance_op := some op, advance_const := some (Constant.int t n) }
    | _ =>
      { s with advance_op := some op, advance_variable := varMap rhs }
  | _ => s

/-- Latch scan of get_loop_induction. -/
def latch_scan (varMap : Value → Option Value) (instrs : List Instr) :
    AdvanceScan :=
  instrs.foldl (induction_latch_step varMap) ⟨none, none, none⟩

/-- Induction-variable-is-stored check of get_loop_induction: some body
block (per is_loop_body) contains a store whose address operand is the
induction variable handle. -/
def stored_in_body (candidate : FusionCandidate) (v : Value) : Bool :=
  candidate.loopBlocks.any fun bb =>
    is_loop_body candidate bb && bb.instrs.any fun i =>
      match i with
      | .store _ addr _ => decide (addr = v)
      | _ => false

/-- get_loop_induction of the source: scan the header for the induction
variable and stop, require both, require the induction variable to be
stored in the body, scan the preheader for start and the latch for
advance, require each to resolve; on success produce the descriptor. -/
def get_loop_induction (candidate : FusionCandidate)
    (varMap : Value → Option Value) : Option LoopInduction :=
  let h := header_scan varMap candidate.header.instrs
  match h.induction_variable with
  | none => none
  | some iv =>
    if h.stop_const.isNone && h.stop_variable.isNone then none
    else if !stored_in_body candidate iv then none
    else
      let p := preheader_scan varMap candidate.preheader.instrs
      if p.start_const.isNone && p.start_variable.isNone then none
      else
        let a := latch_scan varMap candidate.latch.instrs
        if a.advance_const.isNone && a.advance_variable.isNone then none
        else some {
          induction_variable := iv
          start_const := p.start_const
          start_variable := p.start_variable
          stop_const := h.stop_const
          stop_variable := h.stop_variable
          advance_const := a.advance_const
          advance_variable := a.advance_variable
          advance_op := a.advance_op
        }

/-- Model of the llvm Loop queries the builder makes: the loop's block
list and the results of getHeader, getLoopPreheader, getLoopLatch,
getExitingBlock, getUniqueExitBlock and isAnnotatedParallel. -/
structure Loop where
  blocks : List BasicBlock
  header : Option BasicBlock
  preheader : Option BasicBlock
  latch : Option BasicBlock
  exiting : Option BasicBlock
  uniqueExit : Option BasicBlock
  annotatedParallel : Bool

/-- Placeholder induction descriptor of a freshly built candidate (the
source default-constructs the record and fills induction last). -/
def LoopInduction.initial : LoopInduction :=
  ⟨Value.reg 0, none, none, none, none, none, none, none⟩

/-- create_fusion_candidate of the source: reject any loop containing an
instruction that may throw or a volatile access, require preheader and
unique exit, reject annotated-parallel loops, require header, latch and
exiting block, then collect memops and extract induction. -/
def create_fusion_candidate (loop : Loop)
    (varMap : Value → Option Value) : Option FusionCandidate :=
  if loop.blocks.any (fun bb => bb.instrs.any fun i =>
      i.mayThrow || i.isVolatileAccess) then none
  else
    match loop.preheader, loop.uniqueExit with
    | some ph, some ex =>
      if loop.annotatedParallel then none
      else
        match loop.header, loop.latch, loop.exiting with
        | some h, some la, some pe =>
          let c0 : FusionCandidate := {
            loopBlocks := loop.blocks
            preheader := ph
            header := h
            pre_exit := pe
            exit := ex
            latch := la
            induction := LoopInduction.initial
            writes := []
            reads := []
          }
          let c1 := get_loop_memops c0
          match get_loop_induction c1 varMap with
          | some ind => some { c1 with induction := ind }
          | none => none
        | _, _, _ => none
    | _, _ => none

/-- adjacent of the source: pointer equality of c1's exit block and c2's
preheader block. -/
def adjacent (c1 c2 : FusionCandidate) : Bool :=
  decide (c1.exit.id = c2.preheader.id)

/-- are_constants_equal of the source: both null is equal, one null is
unequal, differing types are unequal, two ConstantInt compare by value,
two ConstantFP compare bitwise, any other combination is unequal. -/
def are_constants_equal (lhs rhs : Option Constant) : Bool :=
  match lhs, rhs with
  | none, none => true
  | none, some _ => false
  | some _, none => false
  | some l, some r =>
    if l.ty != r.ty then false
    else
      match l, r with
      | .int _ v1, .int _ v2 => decide (v1 = v2)
      | .fp _ b1, .fp _ b2 => decide (b1 = b2)
      | _, _ => false

/-- same_loop_evolution of the source: for stop, advance and start in
that order, both constants must be equal per are_constants_equal when
both candidates have the constant set, else both variable references must
be identical when both are set, else reject; the advance opcodes must
also be equal. -/
def same_loop_evolution (c1 c2 : FusionCandidate) : Bool :=
  let i1 := c1.induction
  let i2 := c2.induction
  (if i1.stop_const.isSome && i2.stop_const.isSome then
    are_constants_equal i1.stop_const i2.stop_const
  else if i1.stop_variable.isSome && i2.stop_variable.isSome then
    decide (i1.stop_variable = i2.stop_variable)
  else false)
  &&
  (if i1.advance_const.isSome && i2.advance_const.isSome then
    are_constants_equal i1.advance_const i2.advance_const
  else if i1.advance_variable.isSome && i2.advance_variable.isSome then
    decide (i1.advance_variable = i2.advance_variable)
  else false)
  && decide (i1.advance_op = i2.advance_op)
  &&
  (if i1.start_const.isSome && i2.start_const.isSome then
    are_constants_equal i1.start_const i2.start_const
  else if i1.start_variable.isSome && i2.start_variable.isSome then
    decide (i1.start_variable = i2.start_variable)
  else false)

/-- dependent of the source: some write of c1 is identical to some read
or write of c2, or some write of c2 is identical to some read of c1. -/
def dependent (c1 c2 : FusionCandidate) : Bool :=
  (c1.writes.any fun v1 =>
    (c2.reads.any fun v2 => decide (v1 = v2))
      || (c2.writes.any fun v2 => decide (v1 = v2)))
  || (c2.writes.any fun v1 => c1.reads.any fun v2 => decide (v1 = v2))

/-- can_be_fused of the source. -/
def can_be_fused (c1 c2 : FusionCandidate) : Bool :=
  same_loop_evolution c1 c2 && !dependent c1 c2 && adjacent c1 c2

/-- Loop-nest tree node: one loop and its sub-loops, modelling the
structure fuse_same_depth_loops_recursive traverses. -/
inductive LTree where
  | mk (loop : Loop) (subs : List LTree)

/-- Observable events of one run of the driver, in emission order. -/
inductive DriveEvent where
  | visited (loop : Loop)
  | compared (collector current : FusionCandidate) (result : Bool)
  | fused (collector current : FusionCandidate)
  | collected (c : FusionCandidate)

/-- Driver action on a single loop at the current nesting level: build
the candidate; on failure keep the collector; otherwise either fuse the
current candidate into the existing collector when can_be_fused holds
(the collector survives unchanged) or make the current candidate the new
collector. -/
def drive_step (varMap : Value → Option Value)
    (collector : Option FusionCandidate) (loop : Loop) :
    Option FusionCandidate × List DriveEvent :=
  match create_fusion_candidate loop varMap with
  | none => (collector, [.visited loop])
  | some current =>
    match collector with
    | some col =>
      if can_be_fused col current then
        (some col, [.visited loop, .compared col current true, .fused col current])
      else
        (some current, [.visited loop, .compared col current false, .collected current])
    | none => (some current, [.visited loop, .collected current])

/-- fuse_same_depth_loops_recursive of the source over a forest of
sibling loops: for each sibling in program order, first recurse into its
sub-loops with a fresh (empty) collector, then process the sibling itself
against this level's collector. -/
def drive_forest (varMap : Value → Option Value) :
    List LTree → Option FusionCandidate →
    Option FusionCandidate × List DriveEvent
  | [], collector => (collector, [])
  | LTree.mk l subs :: rest, collector =>
    let sub := drive_forest varMap subs none
    let st := drive_step varMap collector l
    let r := drive_forest varMap rest st.1
    (r.1, sub.2 ++ st.2 ++ r.2)
termination_by ts _ => sizeOf ts
decreasing_by
  all_goals simp_wf
  all_goals omega

/-- Pairs of candidates the driver ever handed to can_be_fused, in
order. -/
def compared_pairs (events : List DriveEvent) :
    List (FusionCandidate × FusionCandidate) :=
  events.filterMap fun e =>
    match e with
    | .compared col cur _ => some (col, cur)
    | _ => none

/-- Actions of fuse_with_first, in source order.  Structural CFG edits
are distinguished from analysis recomputations and from bookkeeping. -/
inductive FuseAction where
  | moveInstructionsToTheEnd
  | retargetPreExitBranch
  | makePreheaderUnreachable
  | rewireFirstLatchToSecondHeader
  | rewireSecondLatchToFirstHeader
  | recalculateDomTree
  | recalculatePostDomTree
  | loopInfoRemoveBlock
  | moveInstructionsToTheBeginning
  | mergeLatchSuccessor
  | reparentSecondLoopBlocks
  | eliminateUnreachableBlocks
  | eraseSecondLoop
deriving DecidableEq

/-- Action sequence of fuse_with_first, transliterated one call per
entry from the source body. -/
def fuse_with_first_trace : List FuseAction :=
  [ .moveInstructionsToTheEnd,
    .retargetPreExitBranch,
    .makePreheaderUnreachable,
    .rewireFirstLatchToSecondHeader,
    .rewireSecondLatchToFirstHeader,
    .recalculateDomTree,
    .recalculatePostDomTree,
    .loopInfoRemoveBlock,
    .recalculateDomTree,
    .recalculatePostDomTree,
    .moveInstructionsToTheBeginning,
    .mergeLatchSuccessor,
    .recalculateDomTree,
    .recalculatePostDomTree,
    .reparentSecondLoopBlocks,
    .eliminateUnreachableBlocks,
    .eraseSecondLoop ]

/-- Actions that edit the CFG structure (branch retargeting, terminator
replacement, block merging, block deletion). -/
def FuseAction.isStructuralEdit : FuseAction → Bool
  | .retargetPreExitBranch => true
  | .makePreheaderUnreachable => true
  | .rewireFirstLatchToSecondHeader => true
  | .rewireSecondLatchToFirstHeader => true
  | .mergeLatchSuccessor => true
  | .eliminateUnreachableBlocks => true
  | _ => false

/-- Actions that recompute dominance or post-dominance information. -/
def FuseAction.isRecompute : FuseAction → Bool
  | .recalculateDomTree => true
  | .recalculatePostDomTree => true
  | _ => false

/-- Worker: true iff no two structural edits occur without a
recomputation in between; the flag says whether an edit has occurred
since the last recomputation. -/
def edits_alternate (editSeen : Bool) : List FuseAction → Bool
  | [] => true
  | a :: rest =>
    if a.isRecompute then edits_alternate false rest
    else if a.isStructuralEdit then
      if editSeen then false else edits_alternate true rest
    else edits_alternate editSeen rest

/-- Statement of the one-edit-per-recomputation discipline over an
action sequence: between any two structural edits there is a
recomputation. -/
def one_edit_per_recompute (actions : List FuseAction) : Bool :=
  edits_alternate false actions

/-- Worker for edits_per_segment, carrying the count of structural edits
seen since the last recomputation. -/
def edits_count_worker (n : Nat) : List FuseAction → List Nat
  | [] => [n]
  | a :: rest =>
    if a.isRecompute then n :: edits_count_worker 0 rest
    else edits_count_worker (n + (if a.isStructuralEdit then 1 else 0)) rest

/-- Number of structural edits in each maximal recomputation-free
segment of an action sequence (the last entry counts edits after the
final recomputation). -/
def edits_per_segment (actions : List FuseAction) : List Nat :=
  edits_count_worker 0 actions

/-! Concrete fixtures: small counted loops in the shape produced by the
front end for `for (i = 0; i < 10; i += 1) body`, used as evaluation
witnesses and counterexample inputs. -/

/-- Empty variable map (every lookup misses, as DenseMap lookup of an
absent key yields a null value). -/
def varsNone : Value → Option Value := fun _ => none

/-- Induction-variable slot of the first sample loop. -/
def pW : Value := Value.reg 100

/-- Induction-variable slot of the second sample loop. -/
def pX : Value := Value.reg 110

/-- Induction-variable slot of the third sample loop. -/
def pY : Value := Value.reg 120

/-- Induction-variable slot of the comparison-first sample loop. -/
def pZ : Value := Value.reg 130

/-- Sample loop builder: a while-shaped counted loop with the given
block-id base and induction slot, counting from 0 to 10 by +1.  The
header is also the exiting block, as in a non-rotated while loop. -/
def sampleLoop (base : Nat) (p : Value) : Loop :=
  let preheaderBlock : BasicBlock := ⟨base, [.store (.const (.int 32 0)) p false]⟩
  let headerBlock : BasicBlock :=
    ⟨base + 1, [.load p false, .icmp (.reg (base + 7)) (.const (.int 32 10))]⟩
  let bodyBlock : BasicBlock := ⟨base + 2, [.store (.reg (base + 8)) p false]⟩
  let latchBlock : BasicBlock :=
    ⟨base + 3, [.binop .add (.reg (base + 9)) (.const (.int 32 1))]⟩
  let exitBlock : BasicBlock := ⟨base + 4, []⟩
  { blocks := [headerBlock, bodyBlock, latchBlock]
    header := some headerBlock
    preheader := some preheaderBlock
    latch := some latchBlock
    exiting := some headerBlock
    uniqueExit := some exitBlock
    annotatedParallel := false }

/-- First sample loop. -/
def loopW : Loop := sampleLoop 100 pW

/-- Second sample loop. -/
def loopX : Loop := sampleLoop 110 pX

/-- Third sample loop. -/
def loopY : Loop := sampleLoop 120 pY

/-- Comparison-first sample loop: same shape as the other samples but
with the header's comparison placed before its load, so that no load
occurs before a comparison. -/
def loopZ : Loop :=
  let preheaderBlock : BasicBlock := ⟨130, [.store (.const (.int 32 0)) pZ false]⟩
  let headerBlock : BasicBlock :=
    ⟨131, [.icmp (.reg 137) (.const (.int 32 10)), .load pZ false]⟩
  let bodyBlock : BasicBlock := ⟨132, [.store (.reg 138) pZ false]⟩
  let latchBlock : BasicBlock :=
    ⟨133, [.binop .add (.reg 139) (.const (.int 32 1))]⟩
  let exitBlock : BasicBlock := ⟨134, []⟩
  { blocks := [headerBlock, bodyBlock, latchBlock]
    header := some headerBlock
    preheader := some preheaderBlock
    latch := some latchBlock
    exiting := some headerBlock
    uniqueExit := some exitBlock
    annotatedParallel := false }

/-- Default candidate used only as the getD fallback below. -/
def emptyCand : FusionCandidate :=
  { loopBlocks := []
    preheader := ⟨0, []⟩
    header := ⟨0, []⟩
    pre_exit := ⟨0, []⟩
    exit := ⟨0, []⟩
    latch := ⟨0, []⟩
    induction := LoopInduction.initial
    writes := []
    reads := [] }

/-- Candidate built from the first sample loop. -/
def candW : FusionCandidate :=
  (create_fusion_candidate loopW varsNone).getD emptyCand

/-- Candidate built from the second sample loop. -/
def candX : FusionCandidate :=
  (create_fusion_candidate loopX varsNone).getD emptyCand

/-- Candidate built from the third sample loop. -/
def candY : FusionCandidate :=
  (create_fusion_candidate loopY varsNone).getD emptyCand

/-- Candidate built from the comparison-first sample loop. -/
def candZ : FusionCandidate :=
  (create_fusion_candidate loopZ varsNone).getD emptyCand

/-! Theorems. -/

/-- Claim C1: for every pair of fusion candidates, if any element of one
candidate's write-set is identity-equal to any element of the other
candidate's write-set or read-set (in either direction), then
can_be_fused returns false, regardless of whether the induction
evolutions match. -/
theorem C1_footprint_overlap_blocks_fusion (c1 c2 : FusionCandidate)
    (h : (∃ v, v ∈ c1.writes ∧ (v ∈ c2.writes ∨ v ∈ c2.reads)) ∨
         (∃ v, v ∈ c2.writes ∧ (v ∈ c1.writes ∨ v ∈ c1.reads))) :
    can_be_fused c1 c2 = false := by
  have hd : dependent c1 c2 = true := by
    simp only [dependent, Bool.or_eq_true, List.any_eq_true,
      decide_eq_true_eq]
    rcases h with ⟨v, hw, h2 | h2⟩ | ⟨v, hw, h2 | h2⟩
    · exact Or.inl ⟨v, hw, Or.inr ⟨v, h2, rfl⟩⟩
    · exact Or.inl ⟨v, hw, Or.inl ⟨v, h2, rfl⟩⟩
    · exact Or.inl ⟨v, h2, Or.inr ⟨v, hw, rfl⟩⟩
    · exact Or.inr ⟨v, hw, v, h2, rfl⟩
  simp [can_be_fused, hd]

/-- Witness for C1 at a concrete pair sharing a written location. -/
theorem C1_footprint_overlap_blocks_fusion_witness :
    can_be_fused candW candW = false :=
  C1_footprint_overlap_blocks_fusion candW candW
    (Or.inl ⟨pW, by decide, Or.inl (by decide)⟩)

/-- Required relation between the two sides of one evolution field when
same_loop_evolution accepts: either both candidates carry the constant
and the constants are equal per are_constants_equal, or the constant
kinds do not both occur and both candidates carry identical variable
references. -/
def evo_field_match (fc1 : Option Constant) (fv1 : Option Value)
    (fc2 : Option Constant) (fv2 : Option Value) : Prop :=
  (fc1.isSome = true ∧ fc2.isSome = true ∧ are_constants_equal fc1 fc2 = true)
  ∨ ((fc1.isSome = true ∧ fc2.isSome = true → False)
      ∧ fv1.isSome = true ∧ fv1 = fv2)

/-- Soundness of one evolution-field branch of same_loop_evolution. -/
theorem evo_branch_sound (fc1 fc2 : Option Constant) (fv1 fv2 : Option Value)
    (h : (if fc1.isSome = true ∧ fc2.isSome = true then
            are_constants_equal fc1 fc2
          else if fv1.isSome = true ∧ fv2.isSome = true then
            decide (fv1 = fv2)
          else false) = true) :
    evo_field_match fc1 fv1 fc2 fv2 := by
  by_cases hc : fc1.isSome = true ∧ fc2.isSome = true
  · rw [if_pos hc] at h
    exact Or.inl ⟨hc.1, hc.2, h⟩
  · rw [if_neg hc] at h
    by_cases hv : fv1.isSome = true ∧ fv2.isSome = true
    · rw [if_pos hv] at h
      exact Or.inr ⟨hc, hv.1, of_decide_eq_true h⟩
    · rw [if_neg hv] at h
      exact absurd h (by simp)

/-- Claim C2: same_evolution holds only when, for each of stop, advance
and start independently, both candidates record the same kind (both
constant or both variable-reference), constants comparing by exact value
(integers) or exact bit pattern (floats, no tolerance), variable
references by identity, and the advance_op tags exactly equal; any kind
mismatch or inequality makes the checker return false (the
contrapositive of this statement). -/
theorem C2_same_evolution_characterization (c1 c2 : FusionCandidate)
    (h : same_loop_evolution c1 c2 = true) :
    evo_field_match c1.induction.stop_const c1.induction.stop_variable
        c2.induction.stop_const c2.induction.stop_variable
    ∧ evo_field_match c1.induction.advance_const c1.induction.advance_variable
        c2.induction.advance_const c2.induction.advance_variable
    ∧ c1.induction.advance_op = c2.induction.advance_op
    ∧ evo_field_match c1.induction.start_const c1.induction.start_variable
        c2.induction.start_const c2.induction.start_variable
    ∧ (∀ t a b, are_constants_equal (some (Constant.int t a))
        (some (Constant.int t b)) = true ↔ a = b)
    ∧ (∀ t a b, are_constants_equal (some (Constant.fp t a))
        (some (Constant.fp t b)) = true ↔ a = b) := by
  simp only [same_loop_evolution, Bool.and_eq_true] at h
  obtain ⟨⟨⟨hstop, hadv⟩, hop⟩, hstart⟩ := h
  refine ⟨evo_branch_sound _ _ _ _ hstop, evo_branch_sound _ _ _ _ hadv,
    of_decide_eq_true hop, evo_branch_sound _ _ _ _ hstart, ?_, ?_⟩
  · intro t a b
    simp [are_constants_equal, Constant.ty]
  · intro t a b
    simp [are_constants_equal, Constant.ty]

/-- Witness for C2 at a concrete pair with matching evolutions. -/
theorem C2_same_evolution_characterization_witness :
    evo_field_match candW.induction.stop_const candW.induction.stop_variable
        candX.induction.stop_const candX.induction.stop_variable
    ∧ evo_field_match candW.induction.advance_const candW.induction.advance_variable
        candX.induction.advance_const candX.induction.advance_variable
    ∧ candW.induction.advance_op = candX.induction.advance_op
    ∧ evo_field_match candW.induction.start_const candW.induction.start_variable
        candX.induction.start_const candX.induction.start_variable
    ∧ (∀ t a b, are_constants_equal (some (Constant.int t a))
        (some (Constant.int t b)) = true ↔ a = b)
    ∧ (∀ t a b, are_constants_equal (some (Constant.fp t a))
        (some (Constant.fp t b)) = true ↔ a = b) :=
  C2_same_evolution_characterization candW candX (by decide)

/-- Claim C3: adjacent is true exactly when c1's unique exit block is
the identical block as c2's preheader (pure block identity), and
whenever they are distinct blocks (as with any intervening block between
them), adjacent is false and can_be_fused is false. -/
theorem C3_adjacency_is_block_identity (c1 c2 : FusionCandidate) :
    (adjacent c1 c2 = true ↔ c1.exit.id = c2.preheader.id)
    ∧ (c1.exit.id ≠ c2.preheader.id → can_be_fused c1 c2 = false) := by
  constructor
  · simp [adjacent]
  · intro hne
    have ha : adjacent c1 c2 = false := by simp [adjacent, hne]
    simp [can_be_fused, ha]

/-- Witness for C3 at a concrete non-adjacent pair. -/
theorem C3_adjacency_is_block_identity_witness :
    can_be_fused candW candX = false :=
  (C3_adjacency_is_block_identity candW candX).2 (by decide)

/-- Addresses of the loads of an instruction list, in order. -/
def header_loads (instrs : List Instr) : List Value :=
  instrs.filterMap fun i =>
    match i with
    | .load a _ => some a
    | _ => none

/-- Once the header flag is set, every further header load goes to the
read set and nothing else changes. -/
theorem memops_header_fold_seen (instrs : List Instr) (g : Option Value)
    (w r : List Value) :
    instrs.foldl memops_header_step ⟨g, true, w, r⟩ =
      ⟨g, true, w, r ++ header_loads instrs⟩ := by
  induction instrs generalizing r with
  | nil => simp [header_loads]
  | cons i rest ih =>
    cases i <;>
      simp [memops_header_step, header_loads, List.filterMap_cons, ih]

/-- Header fold of the collector from an unset flag: the first load goes
to the write set, all later loads go to the read set, the pending slot
is untouched. -/
theorem memops_header_fold_unseen (instrs : List Instr) (g : Option Value)
    (w r : List Value) :
    instrs.foldl memops_header_step ⟨g, false, w, r⟩ =
      ⟨g, !(header_loads instrs).isEmpty,
        w ++ (header_loads instrs).take 1,
        r ++ (header_loads instrs).drop 1⟩ := by
  induction instrs generalizing w r with
  | nil => simp [header_loads]
  | cons i rest ih =>
    cases i <;>
      simp [memops_header_step, header_loads, List.filterMap_cons, ih,
        memops_header_fold_seen]

/-- Claim C4: the collector classifies the first header load into the
write-set and every later header load into the read-set; in body blocks
(the loop blocks other than header, latch and pre-exit) it keeps one
pending address-computation slot that a new address computation silently
overwrites, a load consumes the slot into the read-set when occupied and
otherwise records its direct address operand, and a store does the same
symmetrically into the write-set. -/
theorem C4_memops_classification (c : FusionCandidate) (s : MemState)
    (a v b g : Value) (vol : Bool) (bb : BasicBlock) (instrs : List Instr)
    (gO : Option Value) (w r : List Value) :
    (instrs.foldl memops_header_step ⟨gO, false, w, r⟩ =
      ⟨gO, !(header_loads instrs).isEmpty,
        w ++ (header_loads instrs).take 1,
        r ++ (header_loads instrs).drop 1⟩)
    ∧ (memops_body_step s (.gep b) = { s with gep_operand := some b })
    ∧ (s.gep_operand = some g → memops_body_step s (.load a vol) =
        { s with reads := s.reads ++ [g], gep_operand := none })
    ∧ (s.gep_operand = none → memops_body_step s (.load a vol) =
        { s with reads := s.reads ++ [a] })
    ∧ (s.gep_operand = some g → memops_body_step s (.store v a vol) =
        { s with writes := s.writes ++ [g], gep_operand := none })
    ∧ (s.gep_operand = none → memops_body_step s (.store v a vol) =
        { s with writes := s.writes ++ [a] })
    ∧ (bb.id = c.header.id →
        memops_block_step c s bb = bb.instrs.foldl memops_header_step s)
    ∧ (bb.id ≠ c.header.id → bb.id ≠ c.latch.id → bb.id ≠ c.pre_exit.id →
        memops_block_step c s bb = bb.instrs.foldl memops_body_step s)
    ∧ (bb.id ≠ c.header.id → (bb.id = c.latch.id ∨ bb.id = c.pre_exit.id) →
        memops_block_step c s bb = s) := by
  refine ⟨memops_header_fold_unseen instrs gO w r, rfl, ?_, ?_, ?_, ?_,
    ?_, ?_, ?_⟩
  · intro h
    simp [memops_body_step, h]
  · intro h
    simp [memops_body_step, h]
  · intro h
    simp [memops_body_step, h]
  · intro h
    simp [memops_body_step, h]
  · intro h
    simp [memops_block_step, h]
  · intro h1 h2 h3
    simp [memops_block_step, is_loop_body, h1, h2, h3]
  · intro h1 h2
    have hbody : is_loop_body c bb = false := by
      rcases h2 with h2 | h2 <;> simp [is_loop_body, h2]
    simp [memops_block_step, h1, hbody]

/-- Witness for C4: a body load with an occupied slot consumes the slot
into the read set. -/
theorem C4_memops_classification_witness :
    memops_body_step ⟨some (Value.reg 1), false, [], []⟩
        (.load (Value.reg 2) false) =
      ⟨none, false, [], [Value.reg 1]⟩ :=
  (C4_memops_classification emptyCand ⟨some (Value.reg 1), false, [], []⟩
    (Value.reg 2) (Value.reg 2) (Value.reg 2) (Value.reg 1) false
    ⟨0, []⟩ [] none [] []).2.2.1 rfl

/-- First load of an instruction list, regardless of position relative
to comparisons (this is what the source header scan records). -/
def first_header_load : List Instr → Option Value
  | [] => none
  | .load a _ :: _ => some a
  | _ :: rest => first_header_load rest

/-- Modelled from the spec, for comparison only: the first load occurring
before any comparison — the search ends at the first comparison. -/
def spec_first_load_before_cmp : List Instr → Option Value
  | [] => none
  | .icmp _ _ :: _ => none
  | .load a _ :: _ => some a
  | _ :: rest => spec_first_load_before_cmp rest

/-- Header fold of the induction extractor: the recorded induction
variable is the already-recorded one, or else the first load of the
scanned instructions. -/
theorem induction_header_fold_iv (varMap : Value → Option Value)
    (instrs : List Instr) :
    ∀ s : HeaderScan,
      (instrs.foldl (induction_header_step varMap) s).induction_variable =
        match s.induction_variable with
        | some v => some v
        | none => first_header_load instrs := by
  induction instrs with
  | nil =>
    intro s
    cases hs : s.induction_variable <;> simp [first_header_load, hs]
  | cons i rest ih =>
    intro s
    cases i with
    | icmp lhs rhs =>
      cases rhs <;>
        cases hs : s.induction_variable <;>
          simp [induction_header_step, first_header_load, ih, hs]
    | load a vol =>
      cases hs : s.induction_variable <;>
        simp [induction_header_step, first_header_load, ih, hs]
    | _ =>
      cases hs : s.induction_variable <;>
        simp [induction_header_step, first_header_load, ih, hs]

/-- Induction variable recorded by the header scan. -/
theorem header_scan_iv (varMap : Value → Option Value) (instrs : List Instr) :
    (header_scan varMap instrs).induction_variable =
      first_header_load instrs := by
  rw [header_scan, induction_header_fold_iv]

/-- Inversion of a successful induction extraction: the recorded handle
is the one the header scan found, and it is stored in the body. -/
theorem get_loop_induction_some (c : FusionCandidate)
    (varMap : Value → Option Value) (ind : LoopInduction)
    (h : get_loop_induction c varMap = some ind) :
    (header_scan varMap c.header.instrs).induction_variable =
        some ind.induction_variable
    ∧ stored_in_body c ind.induction_variable = true := by
  simp only [get_loop_induction] at h
  cases hiv : (header_scan varMap c.header.instrs).induction_variable with
  | none =>
    rw [hiv] at h
    exact absurd h (by simp)
  | some iv =>
    rw [hiv] at h
    simp only at h
    split at h
    · exact absurd h (by simp)
    · split at h
      · exact absurd h (by simp)
      · split at h
        · exact absurd h (by simp)
        · split at h
          · exact absurd h (by simp)
          · rename_i hstop hstored hstart hadv
            rw [Option.some_inj] at h
            subst h
            refine ⟨rfl, ?_⟩
            simpa using hstored

/-- Claim C5 counterexample: in the comparison-first sample loop the
header has no load before any comparison, yet candidate creation (hence
induction extraction) succeeds, recording the header's first load. -/
theorem C5_claim_counterexample :
    spec_first_load_before_cmp candZ.header.instrs = none
    ∧ create_fusion_candidate loopZ varsNone = some candZ
    ∧ candZ.induction.induction_variable = pZ := by decide

/-- Claim C5 as amended: for every loop whose induction extraction
succeeds, the induction-variable handle is the first load anywhere in
the header (comparisons do not end the search), and the handle is the
target of at least one store in the loop body (excluding
header/latch/pre-exit); extraction fails when the header has no load at
all. -/
theorem C5_amended_induction_handle (c : FusionCandidate)
    (varMap : Value → Option Value) :
    (∀ ind, get_loop_induction c varMap = some ind →
      first_header_load c.header.instrs = some ind.induction_variable
      ∧ stored_in_body c ind.induction_variable = true)
    ∧ (first_header_load c.header.instrs = none →
        get_loop_induction c varMap = none) := by
  constructor
  · intro ind h
    obtain ⟨hiv, hst⟩ := get_loop_induction_some c varMap ind h
    rw [header_scan_iv] at hiv
    exact ⟨hiv, hst⟩
  · intro hnone
    have hiv : (header_scan varMap c.header.instrs).induction_variable =
        none := by rw [header_scan_iv, hnone]
    simp only [get_loop_induction]
    rw [hiv]

/-- Witness for the amended C5 at the first sample loop. -/
theorem C5_amended_induction_handle_witness :
    first_header_load candW.header.instrs =
        some candW.induction.induction_variable
    ∧ stored_in_body candW candW.induction.induction_variable = true :=
  (C5_amended_induction_handle candW varsNone).1 candW.induction (by decide)

/-- Constant stored by the last store of the list whose stored operand
is a ConstantInt, if any. -/
def last_const_store : List Instr → Option Constant
  | [] => none
  | i :: rest =>
    match last_const_store rest with
    | some k => some k
    | none =>
      match i with
      | .store (.const (Constant.int t n)) _ _ => some (Constant.int t n)
      | _ => none

/-- Stored operand of the last store of the list whose stored operand is
not a ConstantInt, if any. -/
def last_nonconst_store_operand : List Instr → Option Value
  | [] => none
  | i :: rest =>
    match last_nonconst_store_operand rest with
    | some v => some v
    | none =>
      match i with
      | .store (.const (Constant.int _ _)) _ _ => none
      | .store v _ _ => some v
      | _ => none

/-- Opcode of the last binary operation of the list, if any. -/
def last_binop_opcode : List Instr → Option BinOp
  | [] => none
  | i :: rest =>
    match last_binop_opcode rest with
    | some op => some op
    | none =>
      match i with
      | .binop op _ _ => some op
      | _ => none

/-- ConstantInt second operand of the last binary operation of the list
having one, if any. -/
def last_const_binop : List Instr → Option Constant
  | [] => none
  | i :: rest =>
    match last_const_binop rest with
    | some k => some k
    | none =>
      match i with
      | .binop _ _ (.const (Constant.int t n)) => some (Constant.int t n)
      | _ => none

/-- Second operand of the last binary operation of the list whose second
operand is not a ConstantInt, if any. -/
def last_nonconst_binop_operand : List Instr → Option Value
  | [] => none
  | i :: rest =>
    match last_nonconst_binop_operand rest with
    | some v => some v
    | none =>
      match i with
      | .binop _ _ (.const (Constant.int _ _)) => none
      | .binop _ _ v => some v
      | _ => none

/-- Preheader fold: start_const is the last ConstantInt store's value,
else the already-recorded one. -/
theorem preheader_fold_const (varMap : Value → Option Value)
    (instrs : List Instr) :
    ∀ s : StartScan,
      (instrs.foldl (induction_preheader_step varMap) s).start_const =
        match last_const_store instrs with
        | some k => some k
        | none => s.start_const := by
  induction instrs with
  | nil => intro s; simp [last_const_store]
  | cons i rest ih =>
    intro s
    rw [List.foldl_cons, ih]
    cases hk : last_const_store rest with
    | some k => simp [last_const_store, hk]
    | none =>
      cases i with
      | store v addr vol =>
        cases v with
        | const k =>
          cases k <;>
            simp [last_const_store, hk, induction_preheader_step]
        | reg n =>
          simp [last_const_store, hk, induction_preheader_step]
      | _ => simp [last_const_store, hk, induction_preheader_step]

/-- Preheader fold: start_variable is the variable map's image of the
last non-ConstantInt store's operand, else the already-recorded one. -/
theorem preheader_fold_var (varMap : Value → Option Value)
    (instrs : List Instr) :
    ∀ s : StartScan,
      (instrs.foldl (induction_preheader_step varMap) s).start_variable =
        match last_nonconst_store_operand instrs with
        | some v => varMap v
        | none => s.start_variable := by
  induction instrs with
  | nil => intro s; simp [last_nonconst_store_operand]
  | cons i rest ih =>
    intro s
    rw [List.foldl_cons, ih]
    cases hk : last_nonconst_store_operand rest with
    | some v => simp [last_nonconst_store_operand, hk]
    | none =>
      cases i with
      | store v addr vol =>
        cases v with
        | const k =>
          cases k <;>
            simp [last_nonconst_store_operand, hk, induction_preheader_step]
        | reg n =>
          simp [last_nonconst_store_operand, hk, induction_preheader_step]
      | _ => simp [last_nonconst_store_operand, hk, induction_preheader_step]

/-- Latch fold: advance_op is the last binary operation's opcode, else
the already-recorded one. -/
theorem latch_fold_op (varMap : Value → Option Value)
    (instrs : List Instr) :
    ∀ s : AdvanceScan,
      (instrs.foldl (induction_latch_step varMap) s).advance_op =
        match last_binop_opcode instrs with
        | some op => some op
        | none => s.advance_op := by
  induction instrs with
  | nil => intro s; simp [last_binop_opcode]
  | cons i rest ih =>
    intro s
    rw [List.foldl_cons, ih]
    cases hk : last_binop_opcode rest with
    | some op => simp [last_binop_opcode, hk]
    | none =>
      cases i with
      | binop op lhs rhs =>
        cases rhs with
        | const k =>
          cases k <;> simp [last_binop_opcode, hk, induction_latch_step]
        | reg n =>
          simp [last_binop_opcode, hk, induction_latch_step]
      | _ => simp [last_binop_opcode, hk, induction_latch_step]

/-- Latch fold: advance_const is the last ConstantInt-operand binary
operation's constant, else the already-recorded one. -/
theorem latch_fold_const (varMap : Value → Option Value)
    (instrs : List Instr) :
    ∀ s : AdvanceScan,
      (instrs.foldl (induction_latch_step varMap) s).advance_const =
        match last_const_binop instrs with
        | some k => some k
        | none => s.advance_const := by
  induction instrs with
  | nil => intro s; simp [last_const_binop]
  | cons i rest ih =>
    intro s
    rw [List.foldl_cons, ih]
    cases hk : last_const_binop rest with
    | some k => simp [last_const_binop, hk]
    | none =>
      cases i with
      | binop op lhs rhs =>
        cases rhs with
        | const k =>
          cases k <;> simp [last_const_binop, hk, induction_latch_step]
        | reg n =>
          simp [last_const_binop, hk, induction_latch_step]
      | _ => simp [last_const_binop, hk, induction_latch_step]

/-- Latch fold: advance_variable is the variable map's image of the last
non-ConstantInt second operand among binary operations, else the
already-recorded one. -/
theorem latch_fold_var (varMap : Value → Option Value)
    (instrs : List Instr) :
    ∀ s : AdvanceScan,
      (instrs.foldl (induction_latch_step varMap) s).advance_variable =
        match last_nonconst_binop_operand instrs with
        | some v => varMap v
        | none => s.advance_variable := by
  induction instrs with
  | nil => intro s; simp [last_nonconst_binop_operand]
  | cons i rest ih =>
    intro s
    rw [List.foldl_cons, ih]
    cases hk : last_nonconst_binop_operand rest with
    | some v => simp [last_nonconst_binop_operand, hk]
    | none =>
      cases i with
      | binop op lhs rhs =>
        cases rhs with
        | const k =>
          cases k <;>
            simp [last_nonconst_binop_operand, hk, induction_latch_step]
        | reg n =>
          simp [last_nonconst_binop_operand, hk, induction_latch_step]
      | _ => simp [last_nonconst_binop_operand, hk, induction_latch_step]

/-- Preheader of the C6 counterexample: a ConstantInt store followed by
a non-constant store of a mapped value. -/
def preMixed : List Instr :=
  [.store (.const (.int 32 5)) pW false, .store (.reg 7) pW false]

/-- Variable map of the C6 counterexample, mapping the non-constant
stored value. -/
def varsMixed : Value → Option Value :=
  fun v => if v = Value.reg 7 then some (Value.reg 9) else none

/-- Claim C6 counterexample: with a ConstantInt store followed by a
non-constant store, the last store does not determine the recorded
start: scanning the whole preheader differs from scanning only its last
store, because the earlier constant remains recorded in start_const. -/
theorem C6_claim_counterexample :
    preMixed.getLast? = some (Instr.store (Value.reg 7) pW false)
    ∧ preheader_scan varsMixed preMixed ≠
        preheader_scan varsMixed [Instr.store (Value.reg 7) pW false]
    ∧ (preheader_scan varsMixed preMixed).start_const =
        some (Constant.int 32 5) := by decide

/-- Claim C6 as amended: the scans are last-writer-wins per kind, not
overall: the last ConstantInt store determines start_const and the last
non-constant store determines start_variable (neither clears the other);
in the latch, the last binary operation always determines advance_op,
while advance_const and advance_variable are likewise determined by the
last binary operation of the matching operand kind. -/
theorem C6_amended_last_writer_per_kind (varMap : Value → Option Value)
    (pre latchInstrs : List Instr) :
    (preheader_scan varMap pre).start_const = last_const_store pre
    ∧ (preheader_scan varMap pre).start_variable =
        Option.bind (last_nonconst_store_operand pre) varMap
    ∧ (latch_scan varMap latchInstrs).advance_op =
        last_binop_opcode latchInstrs
    ∧ (latch_scan varMap latchInstrs).advance_const =
        last_const_binop latchInstrs
    ∧ (latch_scan varMap latchInstrs).advance_variable =
        Option.bind (last_nonconst_binop_operand latchInstrs) varMap := by
  refine ⟨?_, ?_, ?_, ?_, ?_⟩
  · rw [preheader_scan, preheader_fold_const]
    cases last_const_store pre <;> rfl
  · rw [preheader_scan, preheader_fold_var]
    cases last_nonconst_store_operand pre <;> rfl
  · rw [latch_scan, latch_fold_op]
    cases last_binop_opcode latchInstrs <;> rfl
  · rw [latch_scan, latch_fold_const]
    cases last_const_binop latchInstrs <;> rfl
  · rw [latch_scan, latch_fold_var]
    cases last_nonconst_binop_operand latchInstrs <;> rfl

/-- Memops collection leaves the preheader unchanged. -/
theorem get_loop_memops_preheader (c : FusionCandidate) :
    (get_loop_memops c).preheader = c.preheader := rfl

/-- Memops collection leaves the header unchanged. -/
theorem get_loop_memops_header (c : FusionCandidate) :
    (get_loop_memops c).header = c.header := rfl

/-- Memops collection leaves the latch unchanged. -/
theorem get_loop_memops_latch (c : FusionCandidate) :
    (get_loop_memops c).latch = c.latch := rfl

/-- Memops collection leaves the pre-exit unchanged. -/
theorem get_loop_memops_pre_exit (c : FusionCandidate) :
    (get_loop_memops c).pre_exit = c.pre_exit := rfl

/-- Memops collection leaves the exit unchanged. -/
theorem get_loop_memops_exit (c : FusionCandidate) :
    (get_loop_memops c).exit = c.exit := rfl

/-- Memops collection leaves the block list unchanged. -/
theorem get_loop_memops_loopBlocks (c : FusionCandidate) :
    (get_loop_memops c).loopBlocks = c.loopBlocks := rfl

/-- Claim C7 counterexample: the first sample loop (a while-shaped loop
whose header is also its exiting block) yields a successful candidate in
which header and pre-exit are the same block, so the five structural
blocks are not distinct. -/
theorem C7_claim_counterexample :
    create_fusion_candidate loopW varsNone = some candW
    ∧ candW.header.id = candW.pre_exit.id := by decide

/-- Claim C7 as amended: every successfully built candidate records the
loop's preheader, header, latch, exiting block and unique exit (all
present, i.e. non-null, with the loop having a unique exit block and not
annotated parallel), and its induction variable is stored in the loop
body (excluding header/latch/pre-exit) at least once; the five blocks
need not be pairwise distinct. -/
theorem C7_amended_builder_postcondition (loop : Loop)
    (varMap : Value → Option Value) (c : FusionCandidate)
    (h : create_fusion_candidate loop varMap = some c) :
    loop.preheader = some c.preheader
    ∧ loop.header = some c.header
    ∧ loop.latch = some c.latch
    ∧ loop.exiting = some c.pre_exit
    ∧ loop.uniqueExit = some c.exit
    ∧ loop.annotatedParallel = false
    ∧ c.loopBlocks = loop.blocks
    ∧ stored_in_body c c.induction.induction_variable = true := by
  simp only [create_fusion_candidate] at h
  split at h
  · exact absurd h (by simp)
  · split at h
    · rename_i ph ex hph hex
      split at h
      · exact absurd h (by simp)
      · rename_i hpar
        split at h
        · rename_i hd la pe hhd hla hpe
          split at h
          · rename_i ind hind
            rw [Option.some_inj] at h
            subst h
            obtain ⟨-, hst⟩ := get_loop_induction_some _ varMap ind hind
            refine ⟨hph, hhd, hla, hpe, hex, ?_, rfl, hst⟩
            exact Bool.of_not_eq_true hpar
          · exact absurd h (by simp)
        · exact absurd h (by simp)
    · exact absurd h (by simp)

/-- Witness for the amended C7 at the first sample loop. -/
theorem C7_amended_builder_postcondition_witness :
    loopW.preheader = some candW.preheader
    ∧ loopW.header = some candW.header
    ∧ loopW.latch = some candW.latch
    ∧ loopW.exiting = some candW.pre_exit
    ∧ loopW.uniqueExit = some candW.exit
    ∧ loopW.annotatedParallel = false
    ∧ candW.loopBlocks = loopW.blocks
    ∧ stored_in_body candW candW.induction.induction_variable = true :=
  C7_amended_builder_postcondition loopW varsNone candW (by decide)

/-- Claim C8: the driver recurses into sub-loops before processing their
parent loop; at each level it keeps a single collector: a loop whose
candidate build fails leaves the collector unchanged, a buildable
candidate fuses into an existing fusible collector (whose identity
survives), otherwise it becomes the new collector; and the pass is
strictly greedy left-to-right: with three consecutive candidates a, b, c
where b does not fuse with a, the only comparisons made are (a, b) and
(b, c), so a and c are never reconsidered together. -/
theorem C8_driver_greedy_single_pass (varMap : Value → Option Value)
    (col : Option FusionCandidate) (l : Loop) (subs rest : List LTree) :
    ((drive_forest varMap (LTree.mk l subs :: rest) col).2 =
      (drive_forest varMap subs none).2 ++ (drive_step varMap col l).2
        ++ (drive_forest varMap rest (drive_step varMap col l).1).2)
    ∧ (create_fusion_candidate l varMap = none →
        drive_step varMap col l = (col, [.visited l]))
    ∧ (∀ cur col', create_fusion_candidate l varMap = some cur →
        col = some col' → can_be_fused col' cur = true →
        drive_step varMap col l =
          (some col', [.visited l, .compared col' cur true, .fused col' cur]))
    ∧ (∀ cur col', create_fusion_candidate l varMap = some cur →
        col = some col' → can_be_fused col' cur = false →
        drive_step varMap col l =
          (some cur, [.visited l, .compared col' cur false, .collected cur]))
    ∧ (∀ cur, create_fusion_candidate l varMap = some cur → col = none →
        drive_step varMap col l = (some cur, [.visited l, .collected cur]))
    ∧ (∀ lA lB lC a b c,
        create_fusion_candidate lA varMap = some a →
        create_fusion_candidate lB varMap = some b →
        create_fusion_candidate lC varMap = some c →
        can_be_fused a b = false →
        compared_pairs (drive_forest varMap
          [LTree.mk lA [], LTree.mk lB [], LTree.mk lC []] none).2 =
          [(a, b), (b, c)]) := by
  refine ⟨?_, ?_, ?_, ?_, ?_, ?_⟩
  · simp only [drive_forest]
  · intro h
    simp [drive_step, h]
  · intro cur col' hc hcol hf
    subst hcol
    simp [drive_step, hc, hf]
  · intro cur col' hc hcol hf
    subst hcol
    simp [drive_step, hc, hf]
  · intro cur hc hcol
    subst hcol
    simp [drive_step, hc]
  · intro lA lB lC a b c hA hB hC hAB
    simp only [drive_forest, drive_step, hA, hB, hC, hAB]
    cases hbc : can_be_fused b c <;> simp [compared_pairs, hbc]

/-- Witness for C8: three concrete sibling loops where the middle
candidate does not fuse with the first; the comparison trace is exactly
the two consecutive pairs. -/
theorem C8_driver_greedy_single_pass_witness :
    compared_pairs (drive_forest varsNone
        [LTree.mk loopW [], LTree.mk loopX [], LTree.mk loopY []] none).2 =
      [(candW, candX), (candX, candY)] :=
  (C8_driver_greedy_single_pass varsNone none loopW [] []).2.2.2.2.2
    loopW loopX loopY candW candX candY
    (by decide) (by decide) (by decide) (by decide)

/-- Claim C9 counterexample: the transformer's action sequence applies
more than one structural CFG edit before the first dominance and
post-dominance recomputation (the exit-branch retarget, the preheader
termination replacement and both latch rewires all precede it), so
structural edits are batched. -/
theorem C9_claim_counterexample :
    one_edit_per_recompute fuse_with_first_trace = false := by decide

/-- Claim C9 as amended: the transformer applies structural edits in
batches between recomputations: four structural edits precede the first
recomputation, the loop-info block removal batch has none, the
latch-successor merge is one edit followed by recomputation, and the
final unreachable-block elimination is one structural edit not followed
by any recomputation. -/
theorem C9_amended_batched_edits :
    edits_per_segment fuse_with_first_trace = [4, 0, 0, 0, 1, 0, 1] := by
  decide

/-- Claim C10: the dependence predicate is symmetric. -/
theorem C10_dependent_symmetric (c1 c2 : FusionCandidate) :
    dependent c1 c2 = dependent c2 c1 := by
  rw [Bool.eq_iff_iff]
  simp only [dependent, Bool.or_eq_true, List.any_eq_true,
    decide_eq_true_eq]
  constructor
  · rintro (⟨v, hv, (⟨w, hw, rfl⟩ | ⟨w, hw, rfl⟩)⟩ | ⟨v, hv, w, hw, rfl⟩)
    · exact Or.inr ⟨v, hv, v, hw, rfl⟩
    · exact Or.inl ⟨v, hw, Or.inr ⟨v, hv, rfl⟩⟩
    · exact Or.inl ⟨v, hv, Or.inl ⟨v, hw, rfl⟩⟩
  · rintro (⟨v, hv, (⟨w, hw, rfl⟩ | ⟨w, hw, rfl⟩)⟩ | ⟨v, hv, w, hw, rfl⟩)
    · exact Or.inr ⟨v, hv, v, hw, rfl⟩
    · exact Or.inl ⟨v, hw, Or.inr ⟨v, hv, rfl⟩⟩
    · exact Or.inl ⟨v, hv, Or.inl ⟨v, hw, rfl⟩⟩

end LoopFuse
